import Mathlib

/-!
Shallow embedding of the MRO data mirroring scripts
(`scripts/mro_api.py`, `scripts/download_fits.py`,
`scripts/list_available_days.py`, `scripts/download_fits_v2.py`).

Modelling conventions:
* Python strings are Lean `String`s; the Python primitives used by the code
  (`str.endswith`, `str.rstrip` of slashes, `str.isdigit`, lexicographic `sorted`)
  are embedded below over `String.data` (code-point lists), restricted to
  Unicode scalar values exactly as both languages represent them.
* HTML documents are abstracted to the structure BeautifulSoup exposes to
  this code: the ordered list of `<pre>` blocks, each holding the ordered
  list of its anchors, each anchor carrying its optional `href` attribute.
* The remote server and the local filesystem are oracles: for each file
  name the server fixes whether a HEAD probe succeeds, the declared
  content length, whether a streaming GET succeeds, and the body length;
  the filesystem maps a file name to the byte size of the local copy, if
  present.  Network requests issued during a run are recorded in an event
  trace.
* `asyncio.gather` returns the per-task results in task creation order,
  and each per-file task reads and writes only its own local path, so for
  listings without duplicate names the concurrent run is modelled by the
  per-file function applied independently to each name.  The semaphore
  affects scheduling only; it is modelled separately as a small-step
  transition system for the in-flight bound claim.
-/

/-! ## Python string primitives -/

/-- Python lexicographic order on code-point lists: the order used by
`sorted` on strings (compare code points, shorter prefix first). -/
def listLe : List Char → List Char → Bool
  | [], _ => true
  | _ :: _, [] => false
  | a :: as, b :: bs =>
    if a.toNat < b.toNat then true
    else if b.toNat < a.toNat then false
    else listLe as bs

/-- Python `s <= t` on strings (code-point lexicographic). -/
def pyStrLe (s t : String) : Bool := listLe s.data t.data

/-- The ordering relation used to model Python `sorted` on strings. -/
def pyLe (s t : String) : Prop := pyStrLe s t = true

instance : DecidableRel pyLe := fun s t => by
  unfold pyLe; infer_instance

/-- Python `s.endswith(t)`. -/
def str_endswith (s t : String) : Bool := t.data.isSuffixOf s.data

/-- Python `s.rstrip` with a slash argument: remove every trailing slash. -/
def str_rstrip_slash (s : String) : String :=
  ⟨(s.data.reverse.dropWhile (fun c => c == '/')).reverse⟩

/-- The character-level test of Python `str.isdigit`: true for every
character whose Unicode numeric type is Digit or Decimal — not only the
decimal digits, but also characters such as the superscripts and the
Arabic-Indic and Devanagari digits.  The full Unicode table is
represented here by the ranges this development exercises (each verified
against Python); the universally quantified parser theorem below is
invariant in this table, since the code side and the spec side share it,
and the counterexample to the decimal-digit reading relies only on the
superscript two, a verified Python digit that is not a decimal digit. -/
def py_char_isdigit (c : Char) : Bool :=
  c.isDigit || c == '¹' || c == '²' || c == '³' ||
  (0x660 ≤ c.toNat && c.toNat ≤ 0x669) ||
  (0x966 ≤ c.toNat && c.toNat ≤ 0x96F)

/-- Python `s.isdigit()`: non-empty and every character a digit character
in Python's sense. -/
def str_isdigit (s : String) : Bool :=
  !s.data.isEmpty && s.data.all py_char_isdigit

/-! ## ListingParser (`_parse_directory_listing` in `mro_api.py`,
`parse_directory_listing` in the standalone scripts) -/

/-- An HTML page as seen by this code: the `<pre>` blocks in document
order, each holding its anchors' optional `href` attributes. -/
abbrev HtmlDoc := List (List (Option String))

/-- The anchors of `soup.find` on the pre tag: the first pre block, if any. -/
def first_pre (doc : HtmlDoc) : List (Option String) :=
  match doc with
  | [] => []
  | pre :: _ => pre

/-- The loop body of `_parse_directory_listing`: skip anchors with no (or
a falsy) href; for `"files"` keep hrefs ending in `.fits`; for
`"directories"` keep hrefs that end in `/` and are not `../`, stripping
trailing slashes and keeping only 8-digit names. -/
def parse_step (file_type : String) (href : Option String)
    (acc : List String) : List String :=
  match href with
  | none => acc
  | some h =>
    if h.data.isEmpty then acc
    else if file_type == "files" then
      if str_endswith h ".fits" then h :: acc else acc
    else if file_type == "directories" then
      if str_endswith h "/" && h != "../" then
        let dir_name := str_rstrip_slash h
        if dir_name.length == 8 && str_isdigit dir_name then dir_name :: acc
        else acc
      else acc
    else acc

/-- Embeds `MRODataAPI._parse_directory_listing`: iterate the anchors of
the first pre block keeping matching entries in page order, and sort the
result for the `"directories"` kind (Python `sorted` is a stable sort
under a total order, so it agrees with insertion sort). -/
def parse_directory_listing (doc : HtmlDoc) (file_type : String) : List String :=
  let items := (first_pre doc).foldr (parse_step file_type) []
  if file_type == "directories" then List.insertionSort pyLe items else items

/-! ## ExistenceChecker (`check_file_exists`) -/

/-- Reason string built by the skip branch of `check_file_exists`
(thousands separators of the Python format spec are omitted). -/
def skip_reason (actual : Nat) : String :=
  "already exists, size: " ++ toString actual ++ " bytes"

/-- Reason string built by the mismatch branch of `check_file_exists`. -/
def incomplete_reason (expected actual : Nat) : String :=
  "incomplete file, expected: " ++ toString expected ++ ", actual: " ++ toString actual

/-- Reason string built when the HEAD probe raises. -/
def verify_error_reason : String := "could not verify file size"

/-- Embeds `MRODataAPI.check_file_exists`, instrumented with the number of
HEAD probes issued.  `local_size` is `none` when no local file exists;
`probe` is `none` when the HEAD request (or parsing its content-length)
raises, and `some e` when it yields expected size `e` (a missing header
defaults to 0 in the code).  Returns `((should_skip, reason), probes)`. -/
def check_file_exists_run (force : Bool) (local_size : Option Nat)
    (probe : Option Nat) : (Bool × Option String) × Nat :=
  match local_size, force with
  | none, _ => ((false, none), 0)
  | some _, true => ((false, none), 0)
  | some actual, false =>
    match probe with
    | none => ((false, some verify_error_reason), 1)
    | some expected =>
      if 0 < expected && actual == expected then
        ((true, some (skip_reason actual)), 1)
      else
        ((false, some (incomplete_reason expected actual)), 1)

/-- The `(should_skip, reason)` pair returned by `check_file_exists`. -/
def check_file_exists (force : Bool) (local_size : Option Nat)
    (probe : Option Nat) : Bool × Option String :=
  (check_file_exists_run force local_size probe).1

/-! ## Server, filesystem and event model -/

/-- An effect performed during a run: directory creation or a network
request (streaming or plain GET, or a HEAD probe). -/
inductive Event where
  | mkdir (path : String)
  | netGet (url : String)
  | netHead (url : String)
deriving DecidableEq, Repr

/-- Whether an event is a network request. -/
def Event.isNet : Event → Bool
  | .mkdir _ => false
  | .netGet _ => true
  | .netHead _ => true

/-- Number of network requests in a trace. -/
def net_count (tr : List Event) : Nat := tr.countP Event.isNet

/-- The server's behaviour for one remote file: whether the HEAD probe
succeeds and the declared content length it reports (0 when the header is
missing), whether the streaming GET succeeds and the body length it
delivers, and the local size left behind when the GET fails mid-stream
(the partial-write oracle). -/
structure RemoteFile where
  headOk : Bool
  contentLength : Nat
  getOk : Bool
  bodyLen : Nat
  failSize : Option Nat

/-- The server as this code observes it for one date: the listing page
(`none` models a transport error on the listing GET) and the per-file
behaviour. -/
structure Server where
  listing : Option HtmlDoc
  file : String → RemoteFile

/-- `urljoin(date_url, filename)` for a relative file name against a URL
ending in a slash. -/
def url_join (base fname : String) : String := base ++ fname

/-- Embeds `MRODataAPI.download_file`: streaming GET written in chunks;
returns success, the resulting local size at the path, and the network
event.  On failure the partially written content is whatever the
`failSize` oracle says. -/
def download_file (url : String) (rf : RemoteFile) :
    Bool × Option Nat × List Event :=
  if rf.getOk then (true, some rf.bodyLen, [Event.netGet url])
  else (false, rf.failSize, [Event.netGet url])

/-- Embeds the `download_single_file` closure inside
`MRODataAPI.download_date_data`: run the existence check (which issues a
HEAD only when a local file exists and `force` is off); on skip return the
triple at once, otherwise run the semaphore-gated streaming GET.  Returns
the `(filename, success, reason)` triple, the resulting local size at
this name, and the network events of this task. -/
def download_single_file (srv : Server) (force : Bool) (date_url : String)
    (local_size : Option Nat) (fname : String) :
    (String × Bool × String) × Option Nat × List Event :=
  let rf := srv.file fname
  let file_url := url_join date_url fname
  let probe : Option Nat := if rf.headOk then some rf.contentLength else none
  let cr := check_file_exists_run force local_size probe
  let head_events : List Event :=
    if cr.2 = 0 then [] else [Event.netHead file_url]
  match cr.1 with
  | (true, reason) => ((fname, true, reason.getD ""), local_size, head_events)
  | (false, _) =>
    let dl := download_file file_url rf
    ((fname, dl.1, if dl.1 then "downloaded" else "failed"),
      dl.2.1, head_events ++ dl.2.2)

/-- The per-task result triples, in task creation order (the order
`asyncio.gather` returns them). -/
def mirror_outcomes (srv : Server) (force : Bool) (date_url : String)
    (fs : String → Option Nat) (files : List String) :
    List (String × Bool × String) :=
  files.map (fun f => (download_single_file srv force date_url (fs f) f).1)

/-- The local sizes after all tasks ran: each task writes only its own
path (names are unique within one listing, spec section 5). -/
def mirror_sizes (srv : Server) (force : Bool) (date_url : String)
    (fs : String → Option Nat) (files : List String) : String → Option Nat :=
  fun name =>
    if name ∈ files then (download_single_file srv force date_url (fs name) name).2.1
    else fs name

/-- One linearization of the network events of all tasks. -/
def mirror_events (srv : Server) (force : Bool) (date_url : String)
    (fs : String → Option Nat) (files : List String) : List Event :=
  (files.map (fun f => (download_single_file srv force date_url (fs f) f).2.2)).flatten

/-- Embeds the result-processing loop of `download_date_data`: one counter
bump per `(filename, success, reason)` triple.  (The
`isinstance(results, Exception)` test in the source checks the whole list,
never an element, so it is identically false and contributes nothing;
tasks never raise because both `check_file_exists` and `download_file`
catch all exceptions.)  Returns `(downloaded, skipped, failed)`. -/
def process_results (results : List (String × Bool × String)) :
    Nat × Nat × Nat :=
  results.foldl (fun acc r =>
    if r.2.1 then
      if r.2.2 == "downloaded" then (acc.1 + 1, acc.2.1, acc.2.2)
      else (acc.1, acc.2.1 + 1, acc.2.2)
    else (acc.1, acc.2.1, acc.2.2 + 1)) (0, 0, 0)

/-- The statistics dictionary returned by `download_date_data`. -/
structure MirrorResult where
  success : Bool
  downloaded : Nat
  skipped : Nat
  failed : Nat
  total : Nat
  output_dir : String
  error : Option String
deriving DecidableEq, Repr

/-- Everything observable about one run of the mirror operation: the
returned statistics, the local sizes and directories afterwards, the
per-task triples, and the effect trace. -/
structure RunOutput where
  result : MirrorResult
  sizes : String → Option Nat
  dirs : List String
  outcomes : List (String × Bool × String)
  trace : List Event

/-- The API object: only state is the base URL fixed at construction. -/
structure MRODataAPI where
  base_url : String
deriving DecidableEq, Repr

/-- Embeds `MRODataAPI.__init__`: append a trailing slash when the given
base URL does not already end with one. -/
def MRODataAPI.create (base_url : String) : MRODataAPI :=
  if str_endswith base_url "/" then ⟨base_url⟩ else ⟨base_url ++ "/"⟩

/-- Embeds `MRODataAPI.download_date_data` over the server and filesystem
oracles.  The local date directory is created (recursively, tolerating
prior existence) before the listing GET; a transport error on the listing
GET or an empty parsed file list returns early; otherwise every file runs
its per-file pipeline and the counters are aggregated.  `max_concurrent`
bounds scheduling only, exactly as the semaphore in the source controls
only when each GET starts; it does not enter the data flow (see the
scheduling model below). -/
def MRODataAPI.download_date_data (api : MRODataAPI) (srv : Server)
    (date : String) (output_dir : String) (force : Bool)
    (max_concurrent : Nat) (fs : String → Option Nat) (dirs : List String) :
    RunOutput :=
  let date_url := api.base_url ++ date ++ "/"
  let date_dir := output_dir ++ "/" ++ date
  let dirs2 := date_dir :: dirs
  match srv.listing with
  | none =>
    { result := { success := false, downloaded := 0, skipped := 0, failed := 0,
                  total := 0, output_dir := date_dir,
                  error := some ("Error accessing " ++ date_url) },
      sizes := fs, dirs := dirs2, outcomes := [],
      trace := [Event.mkdir date_dir, Event.netGet date_url] }
  | some doc =>
    let files := parse_directory_listing doc "files"
    if files.isEmpty then
      { result := { success := false, downloaded := 0, skipped := 0, failed := 0,
                    total := 0, output_dir := date_dir,
                    error := some "No FITS files found" },
        sizes := fs, dirs := dirs2, outcomes := [],
        trace := [Event.mkdir date_dir, Event.netGet date_url] }
    else
      let results := mirror_outcomes srv force date_url fs files
      let counts := process_results results
      { result := { success := counts.2.2 == 0, downloaded := counts.1,
                    skipped := counts.2.1, failed := counts.2.2,
                    total := files.length, output_dir := date_dir,
                    error := none },
        sizes := mirror_sizes srv force date_url fs files, dirs := dirs2,
        outcomes := results,
        trace := Event.mkdir date_dir :: Event.netGet date_url ::
          mirror_events srv force date_url fs files }

/-- Python `re.match` of the eight-digit date pattern: eight ASCII digits
anchored at the start; the Python dollar anchor
also accepts exactly one trailing newline. -/
def re_match_yyyymmdd (s : String) : Bool :=
  (s.data.length == 8 && s.data.all Char.isDigit) ||
  (s.data.length == 9 && (s.data.take 8).all Char.isDigit &&
    s.data.getLast? == some '\n')

/-- Outcome of the CLI entry point: `invalidExit` is `sys.exit(1)` during
argument validation, `ran` carries the mirror run it dispatched. -/
inductive CliOutcome where
  | invalidExit
  | ran (out : RunOutput)

/-- Embeds the argument validation of `main` in `download_fits.py` and
`download_fits_v2.py`: the date is checked against `^\d{8}$` and
`max_concurrent < 1` is rejected, both exiting before the mirror
operation is invoked; a valid pair dispatches to the API operation as in
`download_fits_v2.py`. -/
def download_fits_main (base_url : String) (srv : Server) (date : String)
    (output_dir : String) (force : Bool) (max_concurrent : Int)
    (fs : String → Option Nat) (dirs : List String) : CliOutcome :=
  if !re_match_yyyymmdd date then .invalidExit
  else if max_concurrent < 1 then .invalidExit
  else .ran ((MRODataAPI.create base_url).download_date_data srv date
    output_dir force max_concurrent.toNat fs dirs)

/-- The effect trace of a CLI invocation: validation failure exits before
any operation runs. -/
def cli_trace : CliOutcome → List Event
  | .invalidExit => []
  | .ran out => out.trace

/-- Embeds `MRODataAPI.list_available_days`: a transport error on the
listing GET propagates as a failure value distinguishable from a list;
otherwise the page is parsed as directories. -/
def list_available_days_api (api : MRODataAPI) (listing : Option HtmlDoc) :
    Except String (List String) :=
  match listing with
  | none => .error ("Error accessing " ++ api.base_url)
  | some doc => .ok (parse_directory_listing doc "directories")

/-- Embeds `list_available_days_async` in `list_available_days.py`: a
transport error is caught, printed to the console, and converted into an
empty list return. -/
def list_available_days_script (listing : Option HtmlDoc) : List String :=
  match listing with
  | none => []
  | some doc => parse_directory_listing doc "directories"

/-! ## Scheduling model: the `asyncio.Semaphore(max_concurrent)` gate

Each task of `download_date_data` runs: existence check, then either an
immediate return (skip) or `async with semaphore` around the streaming
GET.  The states a task can be in and the scheduler's interleaving are
modelled as a small-step transition system; `skip` gives each task index
the verdict of its existence check. -/

/-- Phase of one per-file task. -/
inductive TaskPhase where
  | ready | waiting | fetching | finished
deriving DecidableEq, Repr

/-- Scheduler state: the semaphore counter and every task's phase. -/
structure SemState where
  sem : Nat
  phases : List TaskPhase
deriving DecidableEq, Repr

/-- Initial state: counter at `max_concurrent`, every task ready. -/
def sem_init (max_concurrent n : Nat) : SemState :=
  ⟨max_concurrent, List.replicate n TaskPhase.ready⟩

/-- One scheduler step.  A skipping task finishes without touching the
semaphore; a fetching task acquired the semaphore (counter positive,
decremented) and releases it when its GET completes. -/
inductive SemStep (skip : Nat → Bool) : SemState → SemState → Prop where
  | resolveSkip (s : SemState) (i : Nat) (h : i < s.phases.length) :
      skip i = true → s.phases.get ⟨i, h⟩ = TaskPhase.ready →
      SemStep skip s ⟨s.sem, s.phases.set i TaskPhase.finished⟩
  | enterWait (s : SemState) (i : Nat) (h : i < s.phases.length) :
      skip i = false → s.phases.get ⟨i, h⟩ = TaskPhase.ready →
      SemStep skip s ⟨s.sem, s.phases.set i TaskPhase.waiting⟩
  | acquire (s : SemState) (i : Nat) (h : i < s.phases.length) (k : Nat) :
      s.sem = k + 1 → s.phases.get ⟨i, h⟩ = TaskPhase.waiting →
      SemStep skip s ⟨k, s.phases.set i TaskPhase.fetching⟩
  | release (s : SemState) (i : Nat) (h : i < s.phases.length) :
      s.phases.get ⟨i, h⟩ = TaskPhase.fetching →
      SemStep skip s ⟨s.sem + 1, s.phases.set i TaskPhase.finished⟩

/-- States reachable by the scheduler from the initial state. -/
def SemReachable (skip : Nat → Bool) (max_concurrent n : Nat)
    (s : SemState) : Prop :=
  Relation.ReflTransGen (SemStep skip) (sem_init max_concurrent n) s

/-! ## Claim-side definitions (stated from the specification's words) -/

/-- Spec view of the existence check: the triple
`(skip, reason present, probes issued)` as the spec describes it. -/
def should_skip_claim (force : Bool) (local_size : Option Nat)
    (probe : Option Nat) : Bool × Bool × Nat :=
  if force = true ∨ local_size = none then (false, false, 0)
  else
    match probe with
    | none => (false, true, 1)
    | some len =>
      if 0 < len ∧ local_size = some len then (true, true, 1) else (false, true, 1)

/-- Spec view of the directory filter: keep a hyperlink target that ends
with the path separator, is not the parent link, and whose name after
stripping the trailing separator is eight decimal digits. -/
def directories_claim_filter (href : Option String) : Option String :=
  match href with
  | none => none
  | some h =>
    if str_endswith h "/" = true ∧ h ≠ "../" ∧ (str_rstrip_slash h).length = 8 ∧
        (str_rstrip_slash h).data.all Char.isDigit = true then
      some (str_rstrip_slash h)
    else none

/-- Spec view of the directory filter under Python's own digit test:
like the decimal filter, but the name's characters need only be Python
digit characters.  This is the filter of the amended directories claim. -/
def directories_pydigit_filter (href : Option String) : Option String :=
  match href with
  | none => none
  | some h =>
    if str_endswith h "/" = true ∧ h ≠ "../" ∧ (str_rstrip_slash h).length = 8 ∧
        (str_rstrip_slash h).data.all py_char_isdigit = true then
      some (str_rstrip_slash h)
    else none

/-- A string ends with exactly one trailing slash. -/
def exactly_one_trailing_slash (s : String) : Prop :=
  str_endswith s "/" = true ∧ str_endswith s "//" = false

/-- A result triple counted as a download by the aggregation loop. -/
def is_downloaded (r : String × Bool × String) : Bool :=
  r.2.1 && r.2.2 == "downloaded"

/-- A result triple counted as a skip by the aggregation loop. -/
def is_skipped (r : String × Bool × String) : Bool :=
  r.2.1 && !(r.2.2 == "downloaded")

/-- A result triple counted as a failure by the aggregation loop. -/
def is_failed (r : String × Bool × String) : Bool := !r.2.1

/-- Number of tasks currently holding the semaphore (in-flight GETs). -/
def count_fetching (s : SemState) : Nat :=
  s.phases.countP (fun p => p == TaskPhase.fetching)

/-- Server for the idempotence counterexample: one listed file whose
declared and actual length are both zero, with every request succeeding
and content identical across runs. -/
def srv_zero : Server :=
  ⟨some [[some "a.fits"]], fun _ => ⟨true, 0, true, 0, none⟩⟩

/-- First mirror run of the idempotence counterexample, from an empty
local directory. -/
def c3_run1 : RunOutput :=
  (⟨"http://h/"⟩ : MRODataAPI).download_date_data srv_zero "20250101" "data"
    false 5 (fun _ => none) []

/-- Second mirror run, over the filesystem the first run left behind. -/
def c3_run2 : RunOutput :=
  (⟨"http://h/"⟩ : MRODataAPI).download_date_data srv_zero "20250101" "data"
    false 5 c3_run1.sizes c3_run1.dirs

/-- Concrete mirror run used to witness the aggregate-count invariant:
two listed files, both fetched successfully. -/
def c1_run : RunOutput :=
  (⟨"http://h/"⟩ : MRODataAPI).download_date_data
    ⟨some [[some "a.fits", some "b.fits"]], fun _ => ⟨true, 5, true, 5, none⟩⟩
    "20250101" "data" false 3 (fun _ => none) []

instance (s : String) : Decidable (exactly_one_trailing_slash s) := by
  unfold exactly_one_trailing_slash; infer_instance

/-- First run of the idempotence witness: two files, both with positive
declared length equal to the body length, everything succeeding. -/
def c3ok_run1 : RunOutput :=
  (⟨"http://h/"⟩ : MRODataAPI).download_date_data
    ⟨some [[some "a.fits", some "b.fits"]], fun _ => ⟨true, 5, true, 5, none⟩⟩
    "20250101" "data" false 3 (fun _ => none) []

/-- Second run of the idempotence witness, over the first run's files. -/
def c3ok_run2 : RunOutput :=
  (⟨"http://h/"⟩ : MRODataAPI).download_date_data
    ⟨some [[some "a.fits", some "b.fits"]], fun _ => ⟨true, 5, true, 5, none⟩⟩
    "20250101" "data" false 3 c3ok_run1.sizes c3ok_run1.dirs

/-! ## Helper lemmas -/

theorem listLe_total (a b : List Char) : listLe a b = true ∨ listLe b a = true := by
  induction a generalizing b with
  | nil => left; rfl
  | cons x as ih =>
    cases b with
    | nil => right; rfl
    | cons y bs =>
      by_cases hxy : x.toNat < y.toNat
      · left; simp [listLe, hxy]
      · by_cases hyx : y.toNat < x.toNat
        · right; simp [listLe, hyx]
        · rcases ih bs with h | h
          · left; simp [listLe, hxy, hyx, h]
          · right; simp [listLe, hxy, hyx, h]

theorem listLe_trans {a b c : List Char} (hab : listLe a b = true)
    (hbc : listLe b c = true) : listLe a c = true := by
  induction a generalizing b c with
  | nil => rfl
  | cons x as ih =>
    cases b with
    | nil => simp [listLe] at hab
    | cons y bs =>
      cases c with
      | nil => simp [listLe] at hbc
      | cons z cs =>
        simp only [listLe] at hab hbc ⊢
        by_cases hxy : x.toNat < y.toNat
        · by_cases hyz : y.toNat < z.toNat
          · have hxz : x.toNat < z.toNat := by omega
            simp [hxz]
          · by_cases hzy : z.toNat < y.toNat
            · simp [hyz, hzy] at hbc
            · have hxz : x.toNat < z.toNat := by omega
              simp [hxz]
        · by_cases hyx : y.toNat < x.toNat
          · simp [hxy, hyx] at hab
          · by_cases hyz : y.toNat < z.toNat
            · have hxz : x.toNat < z.toNat := by omega
              simp [hxz]
            · by_cases hzy : z.toNat < y.toNat
              · simp [hyz, hzy] at hbc
              · have h1 : ¬ x.toNat < z.toNat := by omega
                have h2 : ¬ z.toNat < x.toNat := by omega
                simp [hxy, hyx] at hab
                simp [hyz, hzy] at hbc
                simp [h1, h2, ih hab hbc]

theorem process_results_foldl (rs : List (String × Bool × String))
    (acc : Nat × Nat × Nat) :
    rs.foldl (fun acc r =>
      if r.2.1 then
        if r.2.2 == "downloaded" then (acc.1 + 1, acc.2.1, acc.2.2)
        else (acc.1, acc.2.1 + 1, acc.2.2)
      else (acc.1, acc.2.1, acc.2.2 + 1)) acc
    = (acc.1 + rs.countP is_downloaded, acc.2.1 + rs.countP is_skipped,
       acc.2.2 + rs.countP is_failed) := by
  induction rs generalizing acc with
  | nil => simp
  | cons r rs ih =>
    simp only [List.foldl_cons, List.countP_cons, ih]
    by_cases h1 : r.2.1 <;> by_cases h2 : r.2.2 == "downloaded" <;>
      simp [is_downloaded, is_skipped, is_failed, h1, h2, Prod.ext_iff] <;> omega

theorem process_results_eq_countP (rs : List (String × Bool × String)) :
    process_results rs =
      (rs.countP is_downloaded, rs.countP is_skipped, rs.countP is_failed) := by
  have h := process_results_foldl rs (0, 0, 0)
  simpa [process_results] using h

theorem counts_partition (rs : List (String × Bool × String)) :
    rs.countP is_downloaded + rs.countP is_skipped + rs.countP is_failed
      = rs.length := by
  induction rs with
  | nil => rfl
  | cons r rs ih =>
    simp only [List.countP_cons, List.length_cons]
    by_cases h1 : r.2.1 <;> by_cases h2 : r.2.2 == "downloaded" <;>
      simp [is_downloaded, is_failed, is_skipped, h1, h2] <;> omega

theorem skip_reason_ne_downloaded (n : Nat) : skip_reason n ≠ "downloaded" := by
  intro h
  have hlen := congrArg String.length h
  rw [skip_reason, String.length_append, String.length_append] at hlen
  have h1 : ("already exists, size: " : String).length = 22 := rfl
  have h2 : (" bytes" : String).length = 6 := rfl
  have h3 : ("downloaded" : String).length = 10 := rfl
  omega

/-! ## Claim theorems -/

/-- Claim C6: `check_file_exists` returns `(false, none)` with no network
probe when `force` is set or no local file exists; returns `(false, some
reason)` when the HEAD probe fails, rather than raising; returns `(true,
some reason)` exactly when the probed remote length is positive and equal
to the local size; and `(false, some reason)` in every other case — the
instrumented code-side function agrees with the spec-side view pointwise. -/
theorem check_file_exists_matches_spec (force : Bool) (ls probe : Option Nat) :
    ((check_file_exists_run force ls probe).1.1,
     ((check_file_exists_run force ls probe).1.2).isSome,
     (check_file_exists_run force ls probe).2) =
      should_skip_claim force ls probe := by
  cases ls with
  | none => cases force <;> rfl
  | some a =>
    cases force with
    | true => rfl
    | false =>
      cases probe with
      | none => rfl
      | some e =>
        simp only [check_file_exists_run, should_skip_claim]
        by_cases he : 0 < e
        · by_cases hae : a = e
          · simp [he, hae]
          · simp [he, hae]
        · simp [he]

/-- Claim C9 counterexample: for a constructor argument already ending in
two slashes the stored base URL keeps both, so it does not end with
exactly one trailing slash. -/
theorem base_url_one_slash_counterexample :
    (MRODataAPI.create "http://h//").base_url = "http://h//" ∧
    ¬ exactly_one_trailing_slash (MRODataAPI.create "http://h//").base_url := by
  decide

/-- Claim C9 (amended): the stored base URL always ends with at least one
trailing slash — exactly one is appended when the argument has none, and
the argument is kept unchanged otherwise — and every mirror run's listing
GET targets precisely `base_url ++ date ++ "/"`. -/
theorem base_url_trailing_slash (b : String) :
    str_endswith (MRODataAPI.create b).base_url "/" = true ∧
    (str_endswith b "/" = false → (MRODataAPI.create b).base_url = b ++ "/") ∧
    (str_endswith b "/" = true → (MRODataAPI.create b).base_url = b) ∧
    (∀ (srv : Server) (date output_dir : String) (force : Bool) (mc : Nat)
      (fs : String → Option Nat) (dirs : List String),
      ((MRODataAPI.create b).download_date_data srv date output_dir force mc
        fs dirs).trace[1]? =
        some (Event.netGet ((MRODataAPI.create b).base_url ++ date ++ "/"))) := by
  refine ⟨?_, ?_, ?_, ?_⟩
  · unfold MRODataAPI.create
    by_cases hb : str_endswith b "/"
    · simp [hb]
    · simp only [hb, Bool.false_eq_true, if_false]
      show (("/" : String).data).isSuffixOf ((b ++ "/").data) = true
      rw [String.data_append]
      exact List.isSuffixOf_iff_suffix.mpr ⟨b.data, rfl⟩
  · intro hb; simp [MRODataAPI.create, hb]
  · intro hb; simp [MRODataAPI.create, hb]
  · intro srv date output_dir force mc fs dirs
    unfold MRODataAPI.download_date_data
    cases h : srv.listing with
    | none => rfl
    | some doc =>
      by_cases hf : (parse_directory_listing doc "files").isEmpty <;> simp [hf]

/-- Claim C9 witness: a base URL without a trailing slash gets exactly one
appended. -/
theorem base_url_trailing_slash_witness :
    str_endswith (MRODataAPI.create "http://x").base_url "/" = true ∧
    (MRODataAPI.create "http://x").base_url = "http://x" ++ "/" :=
  ⟨(base_url_trailing_slash "http://x").1,
   (base_url_trailing_slash "http://x").2.1 (by decide)⟩

/-- Claim C8 counterexample: the standalone script's listing operation
returns the empty list on a transport error — the very value it returns
for a genuinely empty listing, so the two are indistinguishable. -/
theorem list_days_error_as_empty_counterexample :
    list_available_days_script none = [] ∧
    list_available_days_script (some [[]]) = [] ∧
    list_available_days_script none = list_available_days_script (some [[]]) := by
  refine ⟨rfl, rfl, rfl⟩

/-- Claim C8 (amended): the API wrapper's listing operation surfaces a
transport error as an error value that is never equal to any successful
(possibly empty) list result. -/
theorem list_days_api_distinguishes_errors (api : MRODataAPI) :
    (∀ doc : HtmlDoc, list_available_days_api api (some doc) =
      Except.ok (parse_directory_listing doc "directories")) ∧
    (∀ r : List String, list_available_days_api api none ≠ Except.ok r) := by
  constructor
  · intro doc; rfl
  · intro r h; exact Except.noConfusion h

/-- Claim C2 counterexample: the date-mirror operation itself performs no
argument validation — called directly with the malformed date
`"2025070a"` it issues one network request (the listing GET). -/
theorem mirror_no_date_validation_counterexample :
    re_match_yyyymmdd "2025070a" = false ∧
    net_count ((MRODataAPI.create "http://h/").download_date_data
      ⟨none, fun _ => ⟨true, 0, true, 0, none⟩⟩ "2025070a" "data" false 5
      (fun _ => none) []).trace = 1 := by
  decide

/-- Claim C2 (amended): argument validation lives in the CLI entry points:
a date not matching the eight-digit pattern, or `max_concurrent < 1`,
makes `main` exit before the mirror operation runs, so zero network
requests are issued for a malformed CLI argument. -/
theorem cli_rejects_invalid_before_network (base_url : String) (srv : Server)
    (date output_dir : String) (force : Bool) (mc : Int)
    (fs : String → Option Nat) (dirs : List String)
    (hbad : re_match_yyyymmdd date = false ∨ mc < 1) :
    download_fits_main base_url srv date output_dir force mc fs dirs =
      CliOutcome.invalidExit ∧
    net_count (cli_trace (download_fits_main base_url srv date output_dir
      force mc fs dirs)) = 0 := by
  have hmain : download_fits_main base_url srv date output_dir force mc fs dirs
      = CliOutcome.invalidExit := by
    unfold download_fits_main
    rcases hbad with h | h
    · simp [h]
    · by_cases h2 : re_match_yyyymmdd date <;> simp [h2, h]
  exact ⟨hmain, by rw [hmain]; rfl⟩

/-- Claim C2 witness: the CLI rejects the seven-digit-plus-letter date
before any operation runs. -/
theorem cli_rejects_invalid_before_network_witness :
    download_fits_main "http://h/" ⟨none, fun _ => ⟨true, 0, true, 0, none⟩⟩
      "2025070a" "data" false 5 (fun _ => none) [] = CliOutcome.invalidExit :=
  (cli_rejects_invalid_before_network "http://h/"
    ⟨none, fun _ => ⟨true, 0, true, 0, none⟩⟩ "2025070a" "data" false 5
    (fun _ => none) [] (Or.inl (by decide))).1

/-- Claim C10: every invocation of the date-mirror operation records the
creation of `output_dir/date` as the very first effect of its trace —
hence before any network request — and on every outcome, error returns
included, that directory is present afterwards. -/
theorem mirror_creates_dir_before_network (api : MRODataAPI) (srv : Server)
    (date output_dir : String) (force : Bool) (mc : Nat)
    (fs : String → Option Nat) (dirs : List String) :
    (api.download_date_data srv date output_dir force mc fs dirs).trace.head? =
      some (Event.mkdir (output_dir ++ "/" ++ date)) ∧
    (output_dir ++ "/" ++ date) ∈
      (api.download_date_data srv date output_dir force mc fs dirs).dirs ∧
    (api.download_date_data srv date output_dir force mc fs dirs).dirs =
      (output_dir ++ "/" ++ date) :: dirs := by
  unfold MRODataAPI.download_date_data
  cases h : srv.listing with
  | none => simp
  | some doc =>
    by_cases hf : (parse_directory_listing doc "files").isEmpty <;> simp [hf]

theorem str_isdigit_of_len8 (s : String)
    (h3 : s.length = 8) (h4 : s.data.all py_char_isdigit = true) :
    str_isdigit s = true := by
  unfold str_isdigit
  have hnn : s.data.isEmpty = false := by
    cases hd : s.data with
    | nil =>
      exfalso
      have hl : s.data.length = 0 := by rw [hd]; rfl
      have hl2 : s.length = s.data.length := rfl
      omega
    | cons c cs => rfl
  simp [hnn, h4]

theorem dir_fold_eq (anchors : List (Option String)) :
    anchors.foldr (parse_step "directories") [] =
      anchors.filterMap directories_pydigit_filter := by
  induction anchors with
  | nil => rfl
  | cons href rest ih =>
    cases href with
    | none => simpa [parse_step] using ih
    | some h =>
      simp only [List.foldr_cons, List.filterMap_cons, ih]
      by_cases h0 : h.data.isEmpty
      · have hd : h.data = [] := by simpa using h0
        have hs : str_endswith h "/" = false := by
          unfold str_endswith; rw [hd]; rfl
        simp [parse_step, h0, directories_pydigit_filter, hs]
      · by_cases c1 : str_endswith h "/"
        · by_cases c2 : h = "../"
          · simp [parse_step, h0, directories_pydigit_filter, c1, c2]
          · by_cases c3 : (str_rstrip_slash h).length = 8
            · by_cases c4 : (str_rstrip_slash h).data.all py_char_isdigit
              · have hdig := str_isdigit_of_len8 _ c3 c4
                simp [parse_step, h0, directories_pydigit_filter, c1, c2, c3,
                  c4, hdig]
              · have hdig : str_isdigit (str_rstrip_slash h) = false := by
                  unfold str_isdigit
                  simp [c4]
                simp [parse_step, h0, directories_pydigit_filter, c1, c2, c3,
                  c4, hdig]
            · simp [parse_step, h0, directories_pydigit_filter, c1, c2, c3]
        · simp [parse_step, h0, directories_pydigit_filter, c1]

/-- Claim C5 counterexample: Python `str.isdigit` accepts the superscript
two, a character that is not a decimal digit, so at the hyperlink target
built from the seven digits 2025070 followed by the superscript two the
parser keeps a name that is not all decimal digits — the result is not
the multiset the decimal-digit claim describes. -/
theorem parse_directories_decimal_counterexample :
    parse_directory_listing [[some "2025070²/"]] "directories"
      = ["2025070²"] ∧
    (("2025070²" : String).data.all Char.isDigit) = false ∧
    ((first_pre [[some "2025070²/"]]).filterMap directories_claim_filter)
      = [] ∧
    ¬ (parse_directory_listing [[some "2025070²/"]] "directories").Perm
      ((first_pre [[some "2025070²/"]]).filterMap
        directories_claim_filter) := by
  refine ⟨by decide, by decide, by decide, ?_⟩
  intro h
  exact absurd h.length_eq (by decide)

/-- Claim C5 (amended): for every HTML input, parsing with the
directories kind returns exactly the hyperlink targets of the first
preformatted block that end with the path separator, are not the parent
link, and whose name after stripping the trailing separator has length 8
with every character a digit character in Python's sense (`str.isdigit`,
which also accepts non-decimal Unicode digit characters) — the same
multiset as the spec-side filter — sorted ascending in the Python string
order. -/
theorem parse_directories_matches_python_digits (doc : HtmlDoc) :
    (parse_directory_listing doc "directories").Perm
      ((first_pre doc).filterMap directories_pydigit_filter) ∧
    List.Sorted pyLe (parse_directory_listing doc "directories") := by
  have hparse : parse_directory_listing doc "directories" =
      List.insertionSort pyLe
        ((first_pre doc).filterMap directories_pydigit_filter) := by
    unfold parse_directory_listing
    rw [dir_fold_eq]
    rfl
  rw [hparse]
  haveI : IsTotal String pyLe := ⟨fun s t => listLe_total s.data t.data⟩
  haveI : IsTrans String pyLe := ⟨fun _ _ _ hab hbc => listLe_trans hab hbc⟩
  exact ⟨List.perm_insertionSort _ _, List.sorted_insertionSort _ _⟩

example :
    parse_directory_listing [[some "2025070²/", some "20250101/"]]
      "directories" = ["20250101", "2025070²"] := by decide

example :
    parse_directory_listing
      [[some "../", some "20250101/", some "20250704/", some "20241231/",
        some "img.fits", some "notes/"]] "directories"
      = ["20241231", "20250101", "20250704"] := by decide

example :
    parse_directory_listing
      [[some "../", some "b.fits", some "a.fits", some "20250101/"]] "files"
      = ["b.fits", "a.fits"] := by decide

/-- Claim C7: a date whose remote listing parses to zero files yields a
result with all counts zero, `success = false`, and a non-empty
explanatory message. -/
theorem mirror_empty_listing (api : MRODataAPI) (srv : Server)
    (date output_dir : String) (force : Bool) (mc : Nat)
    (fs : String → Option Nat) (dirs : List String) (doc : HtmlDoc)
    (hdoc : srv.listing = some doc)
    (hempty : parse_directory_listing doc "files" = []) :
    (api.download_date_data srv date output_dir force mc fs dirs).result =
      { success := false, downloaded := 0, skipped := 0, failed := 0,
        total := 0, output_dir := output_dir ++ "/" ++ date,
        error := some "No FITS files found" } ∧
    "No FITS files found" ≠ "" := by
  constructor
  · unfold MRODataAPI.download_date_data
    rw [hdoc]
    simp [hempty]
  · decide

/-- Claim C7 witness: a listing page with no pre block parses to zero
files and the run reports failure. -/
theorem mirror_empty_listing_witness :
    ((⟨"http://h/"⟩ : MRODataAPI).download_date_data
      ⟨some [], fun _ => ⟨true, 0, true, 0, none⟩⟩ "20250101" "data" false 5
      (fun _ => none) []).result.success = false := by
  have h := (mirror_empty_listing ⟨"http://h/"⟩
    ⟨some [], fun _ => ⟨true, 0, true, 0, none⟩⟩ "20250101" "data" false 5
    (fun _ => none) [] [] rfl rfl).1
  rw [h]

theorem download_single_file_name (srv : Server) (force : Bool)
    (date_url : String) (ls : Option Nat) (fname : String) :
    (download_single_file srv force date_url ls fname).1.1 = fname := by
  unfold download_single_file
  rcases hc : (check_file_exists_run force ls
      (if (srv.file fname).headOk = true then some (srv.file fname).contentLength
       else none)).1 with ⟨b, r⟩
  cases b <;> simp [hc]

theorem mirror_outcomes_names (srv : Server) (force : Bool) (du : String)
    (fs : String → Option Nat) (files : List String) :
    (mirror_outcomes srv force du fs files).map Prod.fst = files := by
  unfold mirror_outcomes
  induction files with
  | nil => rfl
  | cons f rest ih => simp [download_single_file_name, ih]

theorem mirror_counts_sum (srv : Server) (force : Bool) (du : String)
    (fs : String → Option Nat) (files : List String) :
    (process_results (mirror_outcomes srv force du fs files)).1 +
      (process_results (mirror_outcomes srv force du fs files)).2.1 +
      (process_results (mirror_outcomes srv force du fs files)).2.2 =
      files.length := by
  rw [process_results_eq_countP]
  have h := counts_partition (mirror_outcomes srv force du fs files)
  simpa [mirror_outcomes, List.length_map] using h

theorem download_date_data_main (api : MRODataAPI) (srv : Server)
    (date output_dir : String) (force : Bool) (mc : Nat)
    (fs : String → Option Nat) (dirs : List String) (doc : HtmlDoc)
    (hdoc : srv.listing = some doc)
    (hne2 : (parse_directory_listing doc "files").isEmpty = false) :
    api.download_date_data srv date output_dir force mc fs dirs =
      ⟨⟨((process_results (mirror_outcomes srv force
            (api.base_url ++ date ++ "/") fs
            (parse_directory_listing doc "files"))).2.2 == 0),
        (process_results (mirror_outcomes srv force
          (api.base_url ++ date ++ "/") fs
          (parse_directory_listing doc "files"))).1,
        (process_results (mirror_outcomes srv force
          (api.base_url ++ date ++ "/") fs
          (parse_directory_listing doc "files"))).2.1,
        (process_results (mirror_outcomes srv force
          (api.base_url ++ date ++ "/") fs
          (parse_directory_listing doc "files"))).2.2,
        (parse_directory_listing doc "files").length,
        output_dir ++ "/" ++ date, none⟩,
       mirror_sizes srv force (api.base_url ++ date ++ "/") fs
         (parse_directory_listing doc "files"),
       (output_dir ++ "/" ++ date) :: dirs,
       mirror_outcomes srv force (api.base_url ++ date ++ "/") fs
         (parse_directory_listing doc "files"),
       Event.mkdir (output_dir ++ "/" ++ date) ::
         Event.netGet (api.base_url ++ date ++ "/") ::
         mirror_events srv force (api.base_url ++ date ++ "/") fs
           (parse_directory_listing doc "files")⟩ := by
  unfold MRODataAPI.download_date_data
  rw [hdoc]
  simp only [hne2, Bool.false_eq_true, if_false]

/-- Claim C1: over a non-empty discovered file list, every file name gets
exactly one outcome triple (in task order), the counts satisfy
`downloaded + skipped + failed = total` with `total` the number of listed
names and `success` exactly when nothing failed, the whole run output is
identical for any two `max_concurrent` values, and the aggregation is
invariant under any completion-order permutation of the outcome list. -/
theorem mirror_counts_invariant (api : MRODataAPI) (srv : Server)
    (date output_dir : String) (force : Bool) (mc mc2 : Nat)
    (fs : String → Option Nat) (dirs : List String) (doc : HtmlDoc)
    (out : RunOutput)
    (hout : out = api.download_date_data srv date output_dir force mc fs dirs)
    (hdoc : srv.listing = some doc)
    (hne : parse_directory_listing doc "files" ≠ []) :
    (out.outcomes.map Prod.fst = parse_directory_listing doc "files") ∧
    (out.result.total = (parse_directory_listing doc "files").length) ∧
    (out.result.downloaded + out.result.skipped + out.result.failed =
      out.result.total) ∧
    (out.result.success = true ↔ out.result.failed = 0) ∧
    (api.download_date_data srv date output_dir force mc2 fs dirs = out) ∧
    (∀ rs : List (String × Bool × String), rs.Perm out.outcomes →
      process_results rs = process_results out.outcomes) := by
  have hne2 : (parse_directory_listing doc "files").isEmpty = false :=
    Bool.eq_false_iff.mpr (fun h => hne (List.isEmpty_iff.mp h))
  subst hout
  rw [download_date_data_main api srv date output_dir force mc fs dirs doc
    hdoc hne2,
    download_date_data_main api srv date output_dir force mc2 fs dirs doc
    hdoc hne2]
  refine ⟨?_, ?_, ?_, ?_, rfl, ?_⟩
  · exact mirror_outcomes_names srv force _ fs _
  · rfl
  · exact mirror_counts_sum srv force _ fs _
  · exact beq_iff_eq
  · intro rs hperm
    rw [process_results_eq_countP, process_results_eq_countP,
      hperm.countP_eq, hperm.countP_eq, hperm.countP_eq]

/-- Claim C1 witness: a concrete two-file run satisfies the count sum. -/
theorem mirror_counts_invariant_witness :
    c1_run.result.downloaded + c1_run.result.skipped + c1_run.result.failed =
      c1_run.result.total :=
  (mirror_counts_invariant ⟨"http://h/"⟩
    ⟨some [[some "a.fits", some "b.fits"]], fun _ => ⟨true, 5, true, 5, none⟩⟩
    "20250101" "data" false 3 7 (fun _ => none) []
    [[some "a.fits", some "b.fits"]] c1_run rfl rfl (by decide)).2.2.1

theorem download_single_file_size_good (srv : Server) (du : String)
    (ls : Option Nat) (f : String)
    (hh : (srv.file f).headOk = true) (hg : (srv.file f).getOk = true)
    (hcb : (srv.file f).contentLength = (srv.file f).bodyLen)
    (hpos : 0 < (srv.file f).contentLength) :
    (download_single_file srv false du ls f).2.1 =
      some (srv.file f).bodyLen := by
  cases ls with
  | none =>
    simp [download_single_file, check_file_exists_run, download_file, hh, hg]
  | some a =>
    by_cases hc : (0 < (srv.file f).contentLength &&
        (a == (srv.file f).contentLength)) = true
    · rcases Bool.and_eq_true_iff.mp hc with ⟨_, he⟩
      have ha : a = (srv.file f).contentLength := beq_iff_eq.mp he
      have hposb : 0 < (srv.file f).bodyLen := hcb ▸ hpos
      subst ha
      simp [download_single_file, check_file_exists_run, hh, hcb, hposb]
    · simp [download_single_file, check_file_exists_run, download_file, hh, hg,
        hc]

theorem download_single_file_skips (srv : Server) (du : String) (f : String)
    (hh : (srv.file f).headOk = true)
    (hcb : (srv.file f).contentLength = (srv.file f).bodyLen)
    (hpos : 0 < (srv.file f).contentLength) :
    (download_single_file srv false du (some (srv.file f).bodyLen) f).1 =
      (f, true, skip_reason (srv.file f).bodyLen) := by
  have hc : (0 < (srv.file f).contentLength &&
      ((srv.file f).bodyLen == (srv.file f).contentLength)) = true := by
    rw [← hcb]
    simp [hpos]
  simp [download_single_file, check_file_exists_run, hh, hc]

theorem mirror_sizes_good (srv : Server) (du : String)
    (fs : String → Option Nat) (files : List String)
    (hfiles : ∀ f ∈ files, (srv.file f).headOk = true ∧
      (srv.file f).getOk = true ∧
      (srv.file f).contentLength = (srv.file f).bodyLen ∧
      0 < (srv.file f).contentLength) :
    ∀ f ∈ files, mirror_sizes srv false du fs files f =
      some (srv.file f).bodyLen := by
  intro f hf
  unfold mirror_sizes
  rcases hfiles f hf with ⟨hh, hg, hcb, hpos⟩
  simp only [hf, if_pos]
  exact download_single_file_size_good srv du (fs f) f hh hg hcb hpos

theorem mirror_outcomes_all_skip (srv : Server) (du : String)
    (fs2 : String → Option Nat) (files : List String)
    (hfiles : ∀ f ∈ files, (srv.file f).headOk = true ∧
      (srv.file f).getOk = true ∧
      (srv.file f).contentLength = (srv.file f).bodyLen ∧
      0 < (srv.file f).contentLength)
    (hsizes : ∀ f ∈ files, fs2 f = some (srv.file f).bodyLen) :
    process_results (mirror_outcomes srv false du fs2 files) =
      (0, files.length, 0) := by
  have hall : ∀ r ∈ mirror_outcomes srv false du fs2 files,
      r.2.1 = true ∧ r.2.2 ≠ "downloaded" := by
    intro r hr
    rcases List.mem_map.mp hr with ⟨f, hf, hrf⟩
    rcases hfiles f hf with ⟨hh, hg, hcb, hpos⟩
    have hsk := download_single_file_skips srv du f hh hcb hpos
    rw [← hrf, hsizes f hf, hsk]
    exact ⟨rfl, skip_reason_ne_downloaded _⟩
  rw [process_results_eq_countP]
  have hzero1 : (mirror_outcomes srv false du fs2 files).countP
      is_downloaded = 0 := by
    rw [List.countP_eq_zero]
    intro r hr
    rcases hall r hr with ⟨h1, h2⟩
    simp [is_downloaded, h1, h2]
  have hlen : (mirror_outcomes srv false du fs2 files).countP
      is_skipped = files.length := by
    have hfull : (mirror_outcomes srv false du fs2 files).countP is_skipped =
        (mirror_outcomes srv false du fs2 files).length := by
      rw [List.countP_eq_length]
      intro r hr
      rcases hall r hr with ⟨h1, h2⟩
      simp [is_skipped, h1, h2]
    rw [hfull]
    simp [mirror_outcomes]
  have hzero2 : (mirror_outcomes srv false du fs2 files).countP
      is_failed = 0 := by
    rw [List.countP_eq_zero]
    intro r hr
    rcases hall r hr with ⟨h1, _⟩
    simp [is_failed, h1]
  rw [hzero1, hlen, hzero2]

theorem download_date_data_empty (api : MRODataAPI) (srv : Server)
    (date output_dir : String) (force : Bool) (mc : Nat)
    (fs : String → Option Nat) (dirs : List String) (doc : HtmlDoc)
    (hdoc : srv.listing = some doc)
    (hemp : (parse_directory_listing doc "files").isEmpty = true) :
    api.download_date_data srv date output_dir force mc fs dirs =
      ⟨⟨false, 0, 0, 0, 0, output_dir ++ "/" ++ date,
        some "No FITS files found"⟩,
       fs, (output_dir ++ "/" ++ date) :: dirs, [],
       [Event.mkdir (output_dir ++ "/" ++ date),
        Event.netGet (api.base_url ++ date ++ "/")]⟩ := by
  unfold MRODataAPI.download_date_data
  rw [hdoc]
  simp [hemp]

/-- Claim C3 (amended): when the mirrored date's files all have a
successful HEAD probe whose declared length is positive and equal to the
delivered body length, and every streaming GET succeeds, a second run
with `force = false` over the filesystem the first run produced skips
everything: `downloaded = 0` and `skipped = total`. -/
theorem mirror_idempotent (api : MRODataAPI) (srv : Server)
    (date output_dir : String) (mc mc2 : Nat) (fs : String → Option Nat)
    (dirs : List String) (doc : HtmlDoc)
    (hdoc : srv.listing = some doc)
    (hfiles : ∀ f ∈ parse_directory_listing doc "files",
      (srv.file f).headOk = true ∧ (srv.file f).getOk = true ∧
      (srv.file f).contentLength = (srv.file f).bodyLen ∧
      0 < (srv.file f).contentLength)
    (out1 out2 : RunOutput)
    (h1 : out1 = api.download_date_data srv date output_dir false mc fs dirs)
    (h2 : out2 = api.download_date_data srv date output_dir false mc2
      out1.sizes out1.dirs) :
    out2.result.downloaded = 0 ∧ out2.result.skipped = out2.result.total := by
  subst h1
  by_cases hemp : (parse_directory_listing doc "files").isEmpty = true
  · rw [download_date_data_empty api srv date output_dir false mc fs dirs doc
      hdoc hemp] at h2
    rw [download_date_data_empty api srv date output_dir false mc2 _ _ doc
      hdoc hemp] at h2
    subst h2
    exact ⟨rfl, rfl⟩
  · have hemp2 : (parse_directory_listing doc "files").isEmpty = false :=
      Bool.eq_false_iff.mpr hemp
    rw [download_date_data_main api srv date output_dir false mc fs dirs doc
      hdoc hemp2] at h2
    rw [download_date_data_main api srv date output_dir false mc2 _ _ doc
      hdoc hemp2] at h2
    subst h2
    have hsizes := mirror_sizes_good srv (api.base_url ++ date ++ "/") fs
      (parse_directory_listing doc "files") hfiles
    have hcounts := mirror_outcomes_all_skip srv (api.base_url ++ date ++ "/")
      (mirror_sizes srv false (api.base_url ++ date ++ "/") fs
        (parse_directory_listing doc "files"))
      (parse_directory_listing doc "files") hfiles hsizes
    constructor
    · show (process_results _).1 = 0
      rw [hcounts]
    · show (process_results _).2.1 = _
      rw [hcounts]

/-- Claim C3 witness: a healthy two-file server (positive sizes, declared
equals actual, all requests succeed) is fully skipped on the second run. -/
theorem mirror_idempotent_witness :
    c3ok_run2.result.downloaded = 0 ∧
    c3ok_run2.result.skipped = c3ok_run2.result.total :=
  mirror_idempotent ⟨"http://h/"⟩
    ⟨some [[some "a.fits", some "b.fits"]], fun _ => ⟨true, 5, true, 5, none⟩⟩
    "20250101" "data" 3 3 (fun _ => none) []
    [[some "a.fits", some "b.fits"]] rfl (by decide)
    c3ok_run1 c3ok_run2 rfl rfl

/-- Claim C3 counterexample: a server offering one zero-length file (with
consistent HEAD and GET, identical across runs) is fetched again on the
second run — `downloaded = 1` and `skipped = 0`, not `downloaded = 0` and
`skipped = total` — because the existence check only skips when the
declared length is strictly positive. -/
theorem mirror_idempotence_counterexample :
    c3_run2.result.downloaded = 1 ∧ c3_run2.result.skipped = 0 ∧
    c3_run2.result.total = 1 ∧
    ¬ (c3_run2.result.downloaded = 0 ∧
       c3_run2.result.skipped = c3_run2.result.total) := by
  decide

theorem countP_set_add {α : Type} (p : α → Bool) (l : List α) (i : Nat)
    (a : α) (h : i < l.length) :
    (l.set i a).countP p + (if p (l.get ⟨i, h⟩) then 1 else 0) =
      l.countP p + (if p a then 1 else 0) := by
  induction l generalizing i with
  | nil => simp at h
  | cons x xs ih =>
    cases i with
    | zero =>
      simp only [List.set, List.countP_cons, List.get]
      by_cases px : p x <;> by_cases pa : p a <;> simp [px, pa]
    | succ j =>
      have hj : j < xs.length := by simpa using h
      have hstep := ih j hj
      simp only [List.set, List.countP_cons, List.get]
      omega

theorem sem_step_preserves (skip : Nat → Bool) (mc n : Nat) {s t : SemState}
    (hstep : SemStep skip s t)
    (ihsum : s.sem + count_fetching s = mc)
    (ihlen : s.phases.length = n)
    (ihskip : ∀ i (hi : i < s.phases.length), skip i = true →
      s.phases.get ⟨i, hi⟩ ≠ TaskPhase.waiting ∧
      s.phases.get ⟨i, hi⟩ ≠ TaskPhase.fetching) :
    t.sem + count_fetching t = mc ∧ t.phases.length = n ∧
    (∀ i (hi : i < t.phases.length), skip i = true →
      t.phases.get ⟨i, hi⟩ ≠ TaskPhase.waiting ∧
      t.phases.get ⟨i, hi⟩ ≠ TaskPhase.fetching) := by
  cases hstep with
  | resolveSkip i hilt hski hready =>
    have hcnt := countP_set_add (fun p => p == TaskPhase.fetching) s.phases i
      TaskPhase.finished hilt
    rw [hready] at hcnt
    have e1 : (if (TaskPhase.ready == TaskPhase.fetching) = true
        then 1 else 0) = 0 := rfl
    have e2 : (if (TaskPhase.finished == TaskPhase.fetching) = true
        then 1 else 0) = 0 := rfl
    rw [e1, e2] at hcnt
    refine ⟨?_, by simpa using ihlen, ?_⟩
    · unfold count_fetching at ihsum ⊢
      dsimp only
      omega
    · intro j hj hsj
      have hj2 : j < s.phases.length := by simpa using hj
      simp only [List.get_eq_getElem, List.getElem_set]
      by_cases hij : i = j
      · simp [hij]
      · simp only [hij, if_false]
        have := ihskip j hj2 hsj
        simpa [List.get_eq_getElem] using this
  | enterWait i hilt hski hready =>
    have hcnt := countP_set_add (fun p => p == TaskPhase.fetching) s.phases i
      TaskPhase.waiting hilt
    rw [hready] at hcnt
    have e1 : (if (TaskPhase.ready == TaskPhase.fetching) = true
        then 1 else 0) = 0 := rfl
    have e2 : (if (TaskPhase.waiting == TaskPhase.fetching) = true
        then 1 else 0) = 0 := rfl
    rw [e1, e2] at hcnt
    refine ⟨?_, by simpa using ihlen, ?_⟩
    · unfold count_fetching at ihsum ⊢
      dsimp only
      omega
    · intro j hj hsj
      have hj2 : j < s.phases.length := by simpa using hj
      simp only [List.get_eq_getElem, List.getElem_set]
      by_cases hij : i = j
      · exfalso
        rw [hij] at hski
        rw [hski] at hsj
        exact Bool.noConfusion hsj
      · simp only [hij, if_false]
        have := ihskip j hj2 hsj
        simpa [List.get_eq_getElem] using this
  | acquire i hilt k hsem hwait =>
    have hcnt := countP_set_add (fun p => p == TaskPhase.fetching) s.phases i
      TaskPhase.fetching hilt
    rw [hwait] at hcnt
    have e1 : (if (TaskPhase.waiting == TaskPhase.fetching) = true
        then 1 else 0) = 0 := rfl
    have e2 : (if (TaskPhase.fetching == TaskPhase.fetching) = true
        then 1 else 0) = 1 := rfl
    rw [e1, e2] at hcnt
    refine ⟨?_, by simpa using ihlen, ?_⟩
    · unfold count_fetching at ihsum ⊢
      dsimp only
      omega
    · intro j hj hsj
      have hj2 : j < s.phases.length := by simpa using hj
      simp only [List.get_eq_getElem, List.getElem_set]
      by_cases hij : i = j
      · exfalso
        rw [← hij] at hsj
        have hnw := (ihskip i hilt hsj).1
        rw [List.get_eq_getElem] at hnw hwait
        exact hnw (by rw [← List.get_eq_getElem] at hwait ⊢; exact hwait)
      · simp only [hij, if_false]
        have := ihskip j hj2 hsj
        simpa [List.get_eq_getElem] using this
  | release i hilt hfetch =>
    have hcnt := countP_set_add (fun p => p == TaskPhase.fetching) s.phases i
      TaskPhase.finished hilt
    rw [hfetch] at hcnt
    have e1 : (if (TaskPhase.fetching == TaskPhase.fetching) = true
        then 1 else 0) = 1 := rfl
    have e2 : (if (TaskPhase.finished == TaskPhase.fetching) = true
        then 1 else 0) = 0 := rfl
    rw [e1, e2] at hcnt
    refine ⟨?_, by simpa using ihlen, ?_⟩
    · unfold count_fetching at ihsum ⊢
      dsimp only
      omega
    · intro j hj hsj
      have hj2 : j < s.phases.length := by simpa using hj
      simp only [List.get_eq_getElem, List.getElem_set]
      by_cases hij : i = j
      · simp [hij]
      · simp only [hij, if_false]
        have := ihskip j hj2 hsj
        simpa [List.get_eq_getElem] using this

theorem sem_invariant (skip : Nat → Bool) (mc n : Nat) (s : SemState)
    (h : SemReachable skip mc n s) :
    s.sem + count_fetching s = mc ∧ s.phases.length = n ∧
    (∀ i (hi : i < s.phases.length), skip i = true →
      s.phases.get ⟨i, hi⟩ ≠ TaskPhase.waiting ∧
      s.phases.get ⟨i, hi⟩ ≠ TaskPhase.fetching) := by
  induction h with
  | refl =>
    refine ⟨?_, by simp [sem_init], ?_⟩
    · have hz : count_fetching (sem_init mc n) = 0 := by
        unfold count_fetching sem_init
        rw [List.countP_eq_zero]
        intro a ha
        rw [List.eq_of_mem_replicate ha]
        decide
      rw [hz]
      simp [sem_init]
    · intro i hi _
      unfold sem_init at hi ⊢
      simp only [List.get_eq_getElem, List.getElem_replicate]
      exact ⟨by decide, by decide⟩
  | tail hsteps hstep ih =>
    exact sem_step_preserves skip mc n hstep ih.1 ih.2.1 ih.2.2

/-- Claim C4: in every state the scheduler can reach, at most
`max_concurrent` fetches hold the semaphore simultaneously, and a task
whose existence check resolved to skip never waits for or holds a
semaphore slot. -/
theorem semaphore_bounds_fetches (skip : Nat → Bool) (mc n : Nat)
    (s : SemState) (h : SemReachable skip mc n s) :
    count_fetching s ≤ mc ∧
    (∀ i (hi : i < s.phases.length), skip i = true →
      s.phases.get ⟨i, hi⟩ ≠ TaskPhase.fetching ∧
      s.phases.get ⟨i, hi⟩ ≠ TaskPhase.waiting) := by
  rcases sem_invariant skip mc n s h with ⟨hsum, _, hskip⟩
  exact ⟨by omega, fun i hi hs => ⟨(hskip i hi hs).2, (hskip i hi hs).1⟩⟩

/-- Claim C4 witness: after a skip, an enter-wait and an acquire from the
initial state with gate width 2, a reachable state with one in-flight
fetch satisfies the bound. -/
theorem semaphore_bounds_fetches_witness :
    count_fetching ⟨1, [TaskPhase.finished, TaskPhase.fetching,
      TaskPhase.ready]⟩ ≤ 2 :=
  (semaphore_bounds_fetches (fun i => i == 0) 2 3
    ⟨1, [TaskPhase.finished, TaskPhase.fetching, TaskPhase.ready]⟩
    (Relation.ReflTransGen.tail (Relation.ReflTransGen.tail
      (Relation.ReflTransGen.tail Relation.ReflTransGen.refl
        (SemStep.resolveSkip (sem_init 2 3) 0 (by decide) rfl rfl))
      (SemStep.enterWait ⟨2, [TaskPhase.finished, TaskPhase.ready,
        TaskPhase.ready]⟩ 1 (by decide) rfl rfl))
      (SemStep.acquire ⟨2, [TaskPhase.finished, TaskPhase.waiting,
        TaskPhase.ready]⟩ 1 (by decide) 1 rfl rfl))).1

/-- Claim C8 witness: a successfully fetched empty listing parses to the
empty ok value, which the error value never equals. -/
theorem list_days_api_distinguishes_errors_witness :
    list_available_days_api ⟨"http://h/"⟩ (some [[]]) =
      Except.ok (parse_directory_listing [[]] "directories") :=
  (list_days_api_distinguishes_errors ⟨"http://h/"⟩).1 [[]]
